import Mathlib

/-!
Verification development for the ISTAtrol heating-valve controller firmware
(`firmware/main.c`). The firmware is shallowly embedded: `uint16_t` values are
modelled as `Nat` with explicit `% 65536`, `int16_t` intermediates as `Int`
with explicit two's-complement wrapping, and the interrupt-driven capture, the
smoothing filter, the cycle scheduler, the predictive regulator and the motor
pulses as pure state-passing functions.
-/

namespace ISTAtrol

/-! ## Calibration constants (main.c, `#define` block) -/

/-- `#define TARGET_TEMPERATURE 5800` -/
def TARGET_TEMPERATURE : Nat := 5800

/-- `#define THERMISTOR_HYSTERESIS 50` -/
def THERMISTOR_HYSTERESIS : Nat := 50

/-- `#define RADIATOR_RESPONSE_TIME 120` -/
def RADIATOR_RESPONSE_TIME : Nat := 120

/-- `#define PREDICTION_STEEPNESS 4` -/
def PREDICTION_STEEPNESS : Nat := 4

/-- `#define MOT_OPEN_TIME 200` (milliseconds) -/
def MOT_OPEN_TIME : Nat := 200

/-- `#define MOT_CLOSE_TIME 400` (milliseconds) -/
def MOT_CLOSE_TIME : Nat := 400

/-! ## Machine-integer helpers (AVR: `int` and `unsigned int` are 16 bits) -/

/-- Conversion of an `Int` to `uint16_t` (C conversion to unsigned, mod 2^16). -/
def uint16OfInt (z : Int) : Nat := (z % 65536).toNat

/-- The C cast `(int16_t)x` applied to a `uint16_t` value held as a `Nat`. -/
def int16OfUInt16 (n : Nat) : Int :=
  if n % 65536 < 32768 then ((n % 65536 : Nat) : Int)
  else ((n % 65536 : Nat) : Int) - 65536

/-- Wrap-around of 16-bit signed `int` arithmetic (gcc two's-complement). -/
def wrapInt16 (z : Int) : Int :=
  if z % 65536 < 32768 then z % 65536 else z % 65536 - 65536

/-! ## `motor_moved` markers (main.c stores the ASCII bytes in a `uint8_t`) -/

/-- `' '`: no motor movement. -/
def MOTOR_NONE : Nat := 32

/-- `'+'`: valve opened. -/
def MOTOR_OPENED : Nat := 43

/-- `'-'`: valve closed. -/
def MOTOR_CLOSED : Nat := 45

/-! ## Temperature smoothing filter (main.c lines 367-375) -/

/-- Initial value of `temp_temp_eight`: `TARGET_TEMPERATURE * 8L` stored into a
`uint16_t` (main.c line 171). -/
def temp_temp_eight_init : Nat := (TARGET_TEMPERATURE * 8) % 65536

/-- One update of the 8-sample moving average (main.c lines 369-371):
`temp_temp_eight -= temp_c; temp_temp_eight += temp_temp;
temp_c = temp_temp_eight / 8;` in `uint16_t` arithmetic. Arguments are the
accumulator `temp_temp_eight`, the raw reading `temp_temp` and the previous
smoothed value `temp_c`; result is the pair (new accumulator, new `temp_c`). -/
def filterEightStep (acc raw prev : Nat) : Nat × Nat :=
  (((acc + (65536 - prev % 65536)) % 65536 + raw % 65536) % 65536,
   (((acc + (65536 - prev % 65536)) % 65536 + raw % 65536) % 65536) / 8)

/-- One update of the two-point moving average (main.c line 374):
`temp_c = (temp_temp + temp_c + 1) / 2;` in `uint16_t` arithmetic. -/
def twoPointStep (raw prev : Nat) : Nat :=
  ((raw % 65536 + prev % 65536 + 1) % 65536) / 2

/-- The smoothing step of `temp_measure`, generic in the target so that both
arms of the `#if TARGET_TEMPERATURE < 7000` preprocessor conditional
(main.c lines 367-375) are embedded. Result: (new `temp_temp_eight`, new
`temp_c`); the two-point arm does not touch the accumulator. -/
def temp_measure_smooth_g (target acc prev raw : Nat) : Nat × Nat :=
  if target < 7000 then filterEightStep acc raw prev
  else (acc, twoPointStep raw prev)

/-- The smoothing step as compiled for the configured target (5800 < 7000,
so the 8-sample arm is the live one). -/
def temp_measure_smooth (acc prev raw : Nat) : Nat × Nat :=
  temp_measure_smooth_g TARGET_TEMPERATURE acc prev raw

/-! ## Predictive regulator (main.c lines 497-511) -/

/-- `temp_future = temp_c + PREDICTION_STEEPNESS *
((int16_t)temp_c - (int16_t)answer.temp_last);` (main.c lines 498-499).
On the AVR, `int` is 16 bits: the casts, the subtraction and the
multiplication wrap as two's-complement `int16`, and the final addition with
the `uint16_t` `temp_c` converts the product to unsigned mod 2^16. -/
def temp_future (temp_c temp_last : Nat) : Nat :=
  uint16OfInt (((temp_c % 65536 : Nat) : Int) +
    wrapInt16 ((PREDICTION_STEEPNESS : Int) *
      wrapInt16 (int16OfUInt16 temp_c - int16OfUInt16 temp_last)))

/-- The decision of the regulation step (main.c lines 502-511): compare
`temp_future` against the hysteresis corridor and pick the `motor_moved`
marker; `'-'` goes with `motor_close()` and `'+'` with `motor_open()`. -/
def regulate_decide (temp_c temp_last : Nat) : Nat :=
  if temp_future temp_c temp_last < TARGET_TEMPERATURE - THERMISTOR_HYSTERESIS then
    MOTOR_CLOSED
  else if TARGET_TEMPERATURE + THERMISTOR_HYSTERESIS < temp_future temp_c temp_last then
    MOTOR_OPENED
  else
    MOTOR_NONE

/-! ## Spec-side regulator (for comparison with the code's computation) -/

/-- Spec-side definition, following the spec's words: `predicted = smoothed +
PredictionSteepness × (smoothed − LastObservedTemperature)`, in exact signed
arithmetic. -/
def spec_predicted (smoothed last : Int) : Int :=
  smoothed + (PREDICTION_STEEPNESS : Int) * (smoothed - last)

/-- Spec-side definition, following the spec's words: Close when
`predicted < TargetTemperature − Hysteresis`, Open when
`predicted > TargetTemperature + Hysteresis`, otherwise None. -/
def spec_select (p : Int) : Nat :=
  if p < (TARGET_TEMPERATURE : Int) - (THERMISTOR_HYSTERESIS : Int) then MOTOR_CLOSED
  else if (TARGET_TEMPERATURE : Int) + (THERMISTOR_HYSTERESIS : Int) < p then MOTOR_OPENED
  else MOTOR_NONE

/-! ## Timing-capture sensor (main.c lines 346-361 and 409-430) -/

/-- The sensor state touched by `temp_measure` (start of a cycle) and by the
Analog Comparator interrupt handler: the single-shot guard `conversion_done`,
the captured counter value `temp_temp`, and the excitation line `TEMP_C`. -/
structure MeasState where
  conversion_done : Bool
  temp_temp : Nat
  temp_c_line : Bool
deriving DecidableEq

/-- One firing of `ISR(ANA_COMP_vect)` (main.c lines 409-430) with the
free-running 16-bit counter `TCNT1` at value `tcnt1`: on the first trigger
since the guard was cleared it captures the counter, sets the guard and
de-asserts the excitation line; otherwise it does nothing. -/
def isrAnaComp (m : MeasState) (tcnt1 : Nat) : MeasState :=
  if m.conversion_done = false then ⟨true, tcnt1 % 65536, false⟩ else m

/-- The start of a measurement cycle in `temp_measure` (main.c lines 352-358):
clear `TCNT1`, clear `conversion_done`, clear `temp_temp`, assert `TEMP_C`. -/
def temp_measure_start (_m : MeasState) : MeasState := ⟨false, 0, true⟩

/-- A full measurement wait: the cycle is started, then the comparator edges
that occur during the bounded wait (`poll_a_second`) fire the interrupt
handler once each, carrying the counter value at that instant. -/
def temp_measure_wait (m : MeasState) (events : List Nat) : MeasState :=
  List.foldl isrAnaComp (temp_measure_start m) events

/-! ## Main loop (main.c lines 454-517) -/

/-- The controller state mutated by the main loop: the cycle counter `time`,
the smoothed reading `temp_c`, the filter accumulator `temp_temp_eight`, and
the USB-visible `answer` struct fields `temp_last` and `motor_moved`. -/
structure CtrlState where
  time : Nat
  temp_c : Nat
  temp_temp_eight : Nat
  temp_last : Nat
  motor_moved : Nat
deriving DecidableEq

/-- One iteration of the main event loop (main.c lines 462-516), abstracted
over the raw reading `raw` fed into the smoothing filter by this cycle's
`temp_measure`: smooth, increment `time` (a `uint16_t`), and when `time`
exceeds `RADIATOR_RESPONSE_TIME` run the regulation step, record
`motor_moved`, zero `time` and set `answer.temp_last` to the smoothed value
the decision used. -/
def loopIter (s : CtrlState) (raw : Nat) : CtrlState :=
  if RADIATOR_RESPONSE_TIME < (s.time + 1) % 65536 then
    ⟨0,
     (temp_measure_smooth s.temp_temp_eight s.temp_c raw).2,
     (temp_measure_smooth s.temp_temp_eight s.temp_c raw).1,
     (temp_measure_smooth s.temp_temp_eight s.temp_c raw).2,
     regulate_decide (temp_measure_smooth s.temp_temp_eight s.temp_c raw).2 s.temp_last⟩
  else
    ⟨(s.time + 1) % 65536,
     (temp_measure_smooth s.temp_temp_eight s.temp_c raw).2,
     (temp_measure_smooth s.temp_temp_eight s.temp_c raw).1,
     s.temp_last,
     s.motor_moved⟩

/-! ## USB command interface, minimal build (main.c lines 253-278) -/

/-- `usbFunctionSetup` with `CAN_AFFORD_USB_COMMANDS` undefined (the build
configured in the repository): it only sets `usbMsgPtr = (void *)&answer` and
returns `sizeof(answer)`, so the reply exposes the `answer` struct
(`temp_last`, `motor_moved`) and no controller state is written. -/
def usbFunctionSetup_min (s : CtrlState) : CtrlState × (Nat × Nat) :=
  (s, (s.temp_last, s.motor_moved))

/-- An event visible to the controller state: a USB status fetch handled by
`usbFunctionSetup`, or one main-loop measurement cycle with raw reading. -/
inductive HostEvent where
  | fetch : HostEvent
  | cycle : Nat → HostEvent
deriving DecidableEq

/-- Whether a host event is a measurement cycle (not a status fetch). -/
def isCycle : HostEvent → Bool
  | HostEvent.fetch => false
  | HostEvent.cycle _ => true

/-- Effect of one host event on the controller state. -/
def hostStep (s : CtrlState) (e : HostEvent) : CtrlState :=
  match e with
  | HostEvent.fetch => (usbFunctionSetup_min s).1
  | HostEvent.cycle raw => loopIter s raw

/-! ## Valve motor actuator (main.c lines 203-233) -/

/-- The two motor output lines `MOT_OPEN` and `MOT_CLOSE`. -/
structure Lines where
  mot_open : Bool
  mot_close : Bool
deriving DecidableEq

/-- `motor_init` leaves both lines low (main.c lines 203-209). -/
def motor_init_lines : Lines := ⟨false, false⟩

/-- `motor_open` (main.c lines 216-221): assert `MOT_OPEN`, hold it for
`MOT_OPEN_TIME` milliseconds, de-assert it. Result: the held line state with
its duration, and the line state when control returns. -/
def motor_open_run (s : Lines) : (Lines × Nat) × Lines :=
  ((⟨true, s.mot_close⟩, MOT_OPEN_TIME), ⟨false, s.mot_close⟩)

/-- `motor_close` (main.c lines 228-233): assert `MOT_CLOSE`, hold it for
`MOT_CLOSE_TIME` milliseconds, de-assert it. -/
def motor_close_run (s : Lines) : (Lines × Nat) × Lines :=
  ((⟨s.mot_open, true⟩, MOT_CLOSE_TIME), ⟨s.mot_open, false⟩)

/-- The actuation performed for a decision marker (main.c lines 502-511):
`'-'` runs `motor_close`, `'+'` runs `motor_open`, anything else does not
touch the lines. Result: the list of held (line state, duration) segments and
the line state when the decision step returns. -/
def act_on_decision (s : Lines) (d : Nat) : List (Lines × Nat) × Lines :=
  if d = MOTOR_CLOSED then ([(motor_close_run s).1], (motor_close_run s).2)
  else if d = MOTOR_OPENED then ([(motor_open_run s).1], (motor_open_run s).2)
  else ([], s)

/-- Actuation of a whole sequence of decisions, accumulating every held line
segment and threading the line state. -/
def run_decisions : Lines → List Nat → List (Lines × Nat) × Lines
  | s, [] => ([], s)
  | s, d :: ds =>
    ((act_on_decision s d).1 ++ (run_decisions (act_on_decision s d).2 ds).1,
     (run_decisions (act_on_decision s d).2 ds).2)

/-! ## Iteration helpers for the convergence and bounding claims -/

/-- A run of the 8-sample filter from a given accumulator and smoothed value
over a list of raw readings, exactly as `temp_measure` chains them. -/
def filterRun (acc tc : Nat) (raws : List Nat) : Nat × Nat :=
  List.foldl (fun p raw => filterEightStep p.1 raw p.2) (acc, tc) raws

/-- The accumulator after one 8-sample filter update with constant raw input
`v`, started from a consistent state (previous smoothed value `acc / 8`). -/
def eightNext (v acc : Nat) : Nat := (filterEightStep acc v (acc / 8)).1

/-- Distance of the 8-sample filter accumulator from its fixed region
`[8v, 8v+7]` (the accumulators whose smoothed value is exactly `v`). -/
def eightDist (v acc : Nat) : Nat :=
  if acc ≤ 8 * v + 7 then 8 * v - acc else acc - (8 * v + 7)

/-- Distance of the two-point filter value from its fixed region `[v, v+1]`. -/
def twoDist (v s : Nat) : Nat :=
  if s ≤ v + 1 then v - s else s - (v + 1)

/-! ## Helper lemmas -/

theorem wrapInt16_emod (z : Int) : wrapInt16 z % 65536 = z % 65536 := by
  unfold wrapInt16
  split <;> omega

theorem int16OfUInt16_emod (n : Nat) :
    int16OfUInt16 n % 65536 = (n : Int) % 65536 := by
  unfold int16OfUInt16
  split <;> push_cast <;> omega

theorem temp_future_congr (tc tl : Nat) :
    temp_future tc tl =
      (((tc : Int) + (PREDICTION_STEEPNESS : Int) * ((tc : Int) - (tl : Int))) % 65536).toNat := by
  unfold temp_future uint16OfInt
  congr 1
  rw [Int.add_emod, wrapInt16_emod, Int.mul_emod, wrapInt16_emod, Int.sub_emod,
    int16OfUInt16_emod, int16OfUInt16_emod, ← Int.sub_emod, ← Int.mul_emod]
  rw [Int.add_emod ((tc : Int)) ((PREDICTION_STEEPNESS : Int) * ((tc : Int) - (tl : Int)))]
  congr 2
  push_cast
  omega

/-! ## Claim C1: predictive regulation decision -/

/-- C1 (counterexample): the claimed selection rule does not hold for every
pair of 16-bit smoothed and last-observed values. At `smoothed = 100`,
`last = 2000` the exact signed prediction is `100 + 4 × (−1900) = −7500`,
below `TargetTemperature − Hysteresis = 5750`, so the claim selects Close;
the code's 16-bit computation yields `temp_future = 58036` and selects Open. -/
theorem C1_counterexample :
    spec_select (spec_predicted 100 2000) = MOTOR_CLOSED ∧
    regulate_decide 100 2000 = MOTOR_OPENED ∧
    MOTOR_OPENED ≠ MOTOR_CLOSED := by
  decide

/-- C1 (amended): at each gated regulation decision the code computes the
prediction `smoothed + PredictionSteepness × (smoothed − LastObserved)` in
16-bit wrapping arithmetic, and for every pair of 16-bit values whose exact
signed prediction lies in the unsigned 16-bit range `[0, 65536)` the computed
`temp_future` equals that prediction and the selection follows the claimed
rule: Close below `Target − Hysteresis`, Open above `Target + Hysteresis`,
None inside the corridor. -/
theorem C1_regulator_decision (tc tl : Nat) (h1 : tc < 65536) (h2 : tl < 65536)
    (h3 : 0 ≤ spec_predicted (tc : Int) (tl : Int))
    (h4 : spec_predicted (tc : Int) (tl : Int) < 65536) :
    regulate_decide tc tl = spec_select (spec_predicted (tc : Int) (tl : Int)) := by
  have heq : temp_future tc tl = (spec_predicted (tc : Int) (tl : Int)).toNat := by
    rw [temp_future_congr tc tl]
    unfold spec_predicted at h3 h4 ⊢
    rw [Int.emod_eq_of_lt h3 h4]
  unfold regulate_decide spec_select
  rw [heq]
  set p := spec_predicted (tc : Int) (tl : Int) with hp
  simp only [TARGET_TEMPERATURE, THERMISTOR_HYSTERESIS, MOTOR_CLOSED, MOTOR_OPENED,
    MOTOR_NONE]
  split_ifs <;> omega

/-- C1 (witness): at `smoothed = 5700`, `last = 5750` the prediction is
`5700 + 4 × (−50) = 5500`, in range, and both sides select Close. -/
theorem C1_witness :
    regulate_decide 5700 5750 = spec_select (spec_predicted (5700 : Int) (5750 : Int)) :=
  C1_regulator_decision 5700 5750 (by decide) (by decide) (by decide) (by decide)

/-! ## Claim C2: 8-sample filter update and initialization -/

/-- C2: with the configured `TargetTemperature = 5800` below the 7000
switchover the smoothing step is the 8-sample filter; the accumulator is
initialized to `8 × TargetTemperature`; every update with 16-bit values whose
mathematical result is representable satisfies
`accumulator' = accumulator − previous_smoothed + raw` and
`smoothed' = accumulator' / 8` with truncating division; and from
`accumulator = 46400`, `previous = 5800`, `raw = 6000` the update yields
accumulator `46600` and smoothed `5825`. -/
theorem C2_eight_filter :
    temp_temp_eight_init = 8 * TARGET_TEMPERATURE ∧
    TARGET_TEMPERATURE < 7000 ∧
    (∀ acc prev raw : Nat, acc < 65536 → raw < 65536 → prev ≤ acc →
      acc - prev + raw < 65536 →
      temp_measure_smooth acc prev raw = (acc - prev + raw, (acc - prev + raw) / 8)) ∧
    temp_measure_smooth 46400 5800 6000 = (46600, 5825) := by
  refine ⟨by decide, by decide, ?_, by decide⟩
  intro acc prev raw h1 h2 h3 h4
  unfold temp_measure_smooth temp_measure_smooth_g filterEightStep
  rw [if_pos (by decide : TARGET_TEMPERATURE < 7000)]
  simp only [Prod.mk.injEq]
  constructor <;> omega

/-- C2 (witness): a further concrete instance of the quantified update law,
`accumulator = 40000`, `previous = 5000`, `raw = 6000`. -/
theorem C2_witness :
    temp_measure_smooth 40000 5000 6000 = (40000 - 5000 + 6000, (40000 - 5000 + 6000) / 8) :=
  C2_eight_filter.2.2.1 40000 5000 6000 (by decide) (by decide) (by decide) (by decide)

/-! ## Claim C3: single-shot capture guard -/

theorem foldl_isr_done (es : List Nat) :
    ∀ m : MeasState, m.conversion_done = true → List.foldl isrAnaComp m es = m := by
  induction es with
  | nil => intro m _; rfl
  | cons e es ih =>
    intro m hm
    rw [List.foldl_cons]
    have hfix : isrAnaComp m e = m := by
      unfold isrAnaComp
      rw [hm]
      simp
    rw [hfix]
    exact ih m hm

/-- C3: once the guard is set, a comparator-edge interrupt changes nothing;
and for any nonempty burst of edges after one measurement start (which clears
the guard), exactly the first edge captures the counter into `temp_temp`,
sets the guard and de-asserts the excitation line, and all later edges leave
the state unchanged. -/
theorem C3_single_shot :
    (∀ (m : MeasState) (v : Nat), m.conversion_done = true → isrAnaComp m v = m) ∧
    (∀ (m : MeasState) (e : Nat) (es : List Nat),
      List.foldl isrAnaComp (temp_measure_start m) (e :: es) =
        ⟨true, e % 65536, false⟩) := by
  constructor
  · intro m v hm
    unfold isrAnaComp
    rw [hm]
    simp
  · intro m e es
    rw [List.foldl_cons]
    have hfirst : isrAnaComp (temp_measure_start m) e = ⟨true, e % 65536, false⟩ := by
      unfold isrAnaComp temp_measure_start
      simp
    rw [hfirst]
    exact foldl_isr_done es _ rfl

/-- C3 (witness): a guard-set state absorbs an edge, and a burst of three
edges after a start captures only the first counter value. -/
theorem C3_witness :
    isrAnaComp ⟨true, 5, false⟩ 9 = ⟨true, 5, false⟩ ∧
    List.foldl isrAnaComp (temp_measure_start ⟨true, 5, false⟩) [7, 8, 9] =
      ⟨true, 7 % 65536, false⟩ :=
  ⟨C3_single_shot.1 ⟨true, 5, false⟩ 9 rfl, C3_single_shot.2 ⟨true, 5, false⟩ 7 [8, 9]⟩

/-! ## Claim C5: cycle with no comparator edge -/

/-- C5 (counterexample): the raw value fed into the filter on an edge-less
cycle is not the stale value captured in the previous cycle. Starting a cycle
from a state whose previous capture was `13500` and seeing no edge leaves
`temp_temp = 0`: `temp_measure` clears `temp_temp` before asserting the
excitation line, so the previous capture is gone. -/
theorem C5_counterexample :
    (temp_measure_wait ⟨true, 13500, false⟩ []).conversion_done = false ∧
    (temp_measure_wait ⟨true, 13500, false⟩ []).temp_temp = 0 ∧
    (temp_measure_wait ⟨true, 13500, false⟩ []).temp_temp ≠ 13500 := by
  decide

/-- C5 (amended): if no comparator edge fires during the bounded wait, the
single-shot guard stays clear for the whole cycle, the excitation line is
still asserted, and the value fed into the smoothing filter is `0` — the
cycle-start clearing of `temp_temp` — rather than the previous capture. -/
theorem C5_no_edge (m : MeasState) :
    temp_measure_wait m [] = ⟨false, 0, true⟩ := rfl

/-! ## Claim C4: cycle scheduler gating -/

/-- C4: every main-loop iteration increments the cycle counter after the
measurement; starting under the invariant `time ≤ ResponseTimeCycles`, a
regulation decision happens exactly when the incremented counter exceeds
`ResponseTimeCycles`, and then the counter is reset to zero,
`LastObservedTemperature` is set to the smoothed value the decision used, and
`motor_moved` records the decision; on iterations without a decision the
counter only takes the increment and `LastObservedTemperature` and
`motor_moved` are unchanged. The invariant is preserved. -/
theorem C4_scheduler (s : CtrlState) (raw : Nat)
    (hs : s.time ≤ RADIATOR_RESPONSE_TIME) :
    (loopIter s raw).time ≤ RADIATOR_RESPONSE_TIME ∧
    (RADIATOR_RESPONSE_TIME < s.time + 1 →
      (loopIter s raw).time = 0 ∧
      (loopIter s raw).temp_last = (temp_measure_smooth s.temp_temp_eight s.temp_c raw).2 ∧
      (loopIter s raw).motor_moved =
        regulate_decide (temp_measure_smooth s.temp_temp_eight s.temp_c raw).2 s.temp_last) ∧
    (s.time + 1 ≤ RADIATOR_RESPONSE_TIME →
      (loopIter s raw).time = s.time + 1 ∧
      (loopIter s raw).temp_last = s.temp_last ∧
      (loopIter s raw).motor_moved = s.motor_moved) := by
  unfold loopIter
  simp only [RADIATOR_RESPONSE_TIME] at hs ⊢
  rw [Nat.mod_eq_of_lt (by omega : s.time + 1 < 65536)]
  split_ifs with h
  · exact ⟨Nat.zero_le _, fun _ => ⟨rfl, rfl, rfl⟩, fun hc => absurd h (by omega)⟩
  · exact ⟨show s.time + 1 ≤ 120 by omega, fun hc => absurd hc h,
      fun _ => ⟨rfl, rfl, rfl⟩⟩

/-- C4 (witness): from a state with `time = 120` the next iteration takes a
decision, resets the counter and records the observed smoothed value. -/
theorem C4_witness :
    (loopIter ⟨120, 0, 46400, 5800, 32⟩ 5800).time ≤ RADIATOR_RESPONSE_TIME ∧
    (RADIATOR_RESPONSE_TIME < 120 + 1 →
      (loopIter ⟨120, 0, 46400, 5800, 32⟩ 5800).time = 0 ∧
      (loopIter ⟨120, 0, 46400, 5800, 32⟩ 5800).temp_last =
        (temp_measure_smooth 46400 0 5800).2 ∧
      (loopIter ⟨120, 0, 46400, 5800, 32⟩ 5800).motor_moved =
        regulate_decide (temp_measure_smooth 46400 0 5800).2 5800) ∧
    (120 + 1 ≤ RADIATOR_RESPONSE_TIME →
      (loopIter ⟨120, 0, 46400, 5800, 32⟩ 5800).time = 120 + 1 ∧
      (loopIter ⟨120, 0, 46400, 5800, 32⟩ 5800).temp_last = 5800 ∧
      (loopIter ⟨120, 0, 46400, 5800, 32⟩ 5800).motor_moved = 32) :=
  C4_scheduler ⟨120, 0, 46400, 5800, 32⟩ 5800 (by decide)

/-! ## Claim C6: bounds of the 8-sample filter output -/

/-- C6 (counterexample): the smoothed output is not bounded by the trailing 8
raw samples. From the reset state (`temp_c = 0`, accumulator `46400`) eight
consecutive raw readings of `0` leave `smoothed = 2277`, far above the
maximum `0` of the trailing 8 samples: the filter is exponentially weighted,
so the initial accumulator still carries weight after 8 samples. -/
theorem C6_counterexample :
    (filterRun 46400 0 [0, 0, 0, 0, 0, 0, 0, 0]).2 = 2277 ∧
    ¬(filterRun 46400 0 [0, 0, 0, 0, 0, 0, 0, 0]).2 ≤ 0 + 1 := by
  decide

/-- C6 (amended): each update of the 8-sample filter from a consistent state
(previous smoothed value = accumulator / 8, no 16-bit wrap-around) keeps the
smoothed output between the minimum and the maximum of the previous smoothed
value and the new raw sample; the trailing-8 bound of the claim fails because
older samples keep exponentially decaying weight. -/
theorem C6_update_bounds (acc raw : Nat) (h1 : acc < 65536) (h2 : raw < 65536)
    (h3 : acc - acc / 8 + raw < 65536) :
    min (acc / 8) raw ≤ (filterEightStep acc raw (acc / 8)).2 ∧
    (filterEightStep acc raw (acc / 8)).2 ≤ max (acc / 8) raw := by
  unfold filterEightStep
  constructor <;> omega

/-- C6 (witness): the amended bound at `accumulator = 46400`, `raw = 6000`:
`5800 = min 5800 6000 ≤ 5825 ≤ max 5800 6000 = 6000`. -/
theorem C6_witness :
    min (46400 / 8) 6000 ≤ (filterEightStep 46400 6000 (46400 / 8)).2 ∧
    (filterEightStep 46400 6000 (46400 / 8)).2 ≤ max (46400 / 8) 6000 :=
  C6_update_bounds 46400 6000 (by decide) (by decide) (by decide)

/-! ## Claim C7: two-point filter update -/

/-- C7: when the target is at or above the 7000 switchover the smoothing step
is the two-point average; for readings in the documented range (up to 32767,
where no 16-bit wrap occurs) it computes
`smoothed' = (raw + previous_smoothed + 1) / 2` with truncating division
(rounding to nearest, ties up), leaves the 8-sample accumulator untouched,
and is a function of `raw` and `previous_smoothed` only. -/
theorem C7_two_point (target acc prev raw : Nat) (ht : 7000 ≤ target)
    (h1 : raw ≤ 32767) (h2 : prev ≤ 32767) :
    temp_measure_smooth_g target acc prev raw = (acc, (raw + prev + 1) / 2) := by
  unfold temp_measure_smooth_g twoPointStep
  rw [if_neg (by omega)]
  simp only [Prod.mk.injEq, true_and]
  omega

/-- C7 (witness): spec scenario 1's configuration (`target = 8000`) with
`raw = 8200`, `previous = 8100` gives `(8200 + 8100 + 1) / 2 = 8150`. -/
theorem C7_witness :
    temp_measure_smooth_g 8000 0 8100 8200 = (0, (8200 + 8100 + 1) / 2) :=
  C7_two_point 8000 0 8100 8200 (by decide) (by decide) (by decide)

/-! ## Claim C8: convergence on constant input (lemmas) -/

theorem eightNext_eq (v acc : Nat) (hv : v < 8192) (ha : acc < 65536) :
    eightNext v acc = acc - acc / 8 + v := by
  unfold eightNext filterEightStep
  omega

theorem eightNext_lt_bound (v acc : Nat) (hv : v < 8192) (ha : acc < 65536) :
    eightNext v acc < 65536 := by
  rw [eightNext_eq v acc hv ha]
  omega

theorem eightNext_iterate_fixed (v : Nat) (hv : v < 8192) :
    ∀ (n acc : Nat), acc < 65536 → acc / 8 = v → (eightNext v)^[n] acc = acc := by
  intro n
  induction n with
  | zero => intro acc _ _; rfl
  | succ k ih =>
    intro acc ha h8
    rw [Function.iterate_succ_apply]
    have hfix : eightNext v acc = acc := by
      rw [eightNext_eq v acc hv ha]
      omega
    rw [hfix]
    exact ih acc ha h8

theorem eightDist_decrease (v acc : Nat) (hv : v < 8192) (ha : acc < 65536)
    (h : 0 < eightDist v acc) :
    eightDist v (eightNext v acc) < eightDist v acc := by
  rw [eightNext_eq v acc hv ha]
  unfold eightDist at h ⊢
  split_ifs at h ⊢ <;> omega

theorem eight_converges (v : Nat) (hv : v < 8192) :
    ∀ (j acc : Nat), acc < 65536 → eightDist v acc ≤ j →
      ∀ n, j ≤ n → ((eightNext v)^[n] acc) / 8 = v := by
  intro j
  induction j with
  | zero =>
    intro acc ha hd n _
    have h8 : acc / 8 = v := by
      unfold eightDist at hd
      split_ifs at hd <;> omega
    rw [eightNext_iterate_fixed v hv n acc ha h8]
    exact h8
  | succ k ih =>
    intro acc ha hd n hn
    by_cases h8 : acc / 8 = v
    · rw [eightNext_iterate_fixed v hv n acc ha h8]
      exact h8
    · obtain ⟨m, rfl⟩ : ∃ m, n = m + 1 := ⟨n - 1, by omega⟩
      rw [Function.iterate_succ_apply]
      have hpos : 0 < eightDist v acc := by
        unfold eightDist
        split_ifs <;> omega
      have hdec := eightDist_decrease v acc hv ha hpos
      exact ih (eightNext v acc) (eightNext_lt_bound v acc hv ha) (by omega) m (by omega)

theorem twoStep_eq (v s : Nat) (hv : v ≤ 32767) (hs : s ≤ 32767) :
    twoPointStep v s = (v + s + 1) / 2 := by
  unfold twoPointStep
  omega

theorem twoStep_le_bound (v s : Nat) (hv : v ≤ 32767) (hs : s ≤ 32767) :
    twoPointStep v s ≤ 32767 := by
  rw [twoStep_eq v s hv hs]
  omega

theorem twoStep_iterate_fixed (v : Nat) (hv : v ≤ 32767) :
    ∀ (n s : Nat), s ≤ 32767 → v ≤ s → s ≤ v + 1 → (twoPointStep v)^[n] s = s := by
  intro n
  induction n with
  | zero => intro s _ _ _; rfl
  | succ k ih =>
    intro s hs hl hu
    rw [Function.iterate_succ_apply]
    have hfix : twoPointStep v s = s := by
      rw [twoStep_eq v s hv hs]
      omega
    rw [hfix]
    exact ih s hs hl hu

theorem twoDist_decrease (v s : Nat) (hv : v ≤ 32767) (hs : s ≤ 32767)
    (h : 0 < twoDist v s) :
    twoDist v (twoPointStep v s) < twoDist v s := by
  rw [twoStep_eq v s hv hs]
  unfold twoDist at h ⊢
  split_ifs at h ⊢ <;> omega

theorem two_converges (v : Nat) (hv : v ≤ 32767) :
    ∀ (j s : Nat), s ≤ 32767 → twoDist v s ≤ j →
      ∀ n, j ≤ n → v ≤ (twoPointStep v)^[n] s ∧ (twoPointStep v)^[n] s ≤ v + 1 := by
  intro j
  induction j with
  | zero =>
    intro s hs hd n _
    have h0 : v ≤ s ∧ s ≤ v + 1 := by
      unfold twoDist at hd
      split_ifs at hd <;> omega
    rw [twoStep_iterate_fixed v hv n s hs h0.1 h0.2]
    exact h0
  | succ k ih =>
    intro s hs hd n hn
    by_cases h0 : v ≤ s ∧ s ≤ v + 1
    · rw [twoStep_iterate_fixed v hv n s hs h0.1 h0.2]
      exact h0
    · obtain ⟨m, rfl⟩ : ∃ m, n = m + 1 := ⟨n - 1, by omega⟩
      rw [Function.iterate_succ_apply]
      have hpos : 0 < twoDist v s := by
        unfold twoDist
        split_ifs <;> omega
      have hdec := twoDist_decrease v s hv hs hpos
      exact ih (twoPointStep v s) (twoStep_le_bound v s hv hs) (by omega) m (by omega)

/-- C8: feeding either filter a constant raw value `v` in its working range
converges: for the 8-sample filter, from any 16-bit accumulator (with the
consistent smoothed value `accumulator / 8`, as the main loop maintains) the
smoothed output equals `v` exactly after at most 65536 updates and stays
there; for the two-point filter, from any initial smoothed value in the
documented range the output is within one rounding unit of `v`
(in `[v, v+1]`) after at most 32768 updates and stays there. -/
theorem C8_convergence :
    (∀ v acc : Nat, v < 8192 → acc < 65536 →
      ∀ n, 65536 ≤ n → ((eightNext v)^[n] acc) / 8 = v) ∧
    (∀ v s : Nat, v ≤ 32767 → s ≤ 32767 →
      ∀ n, 32768 ≤ n →
        v ≤ (twoPointStep v)^[n] s ∧ (twoPointStep v)^[n] s ≤ v + 1) := by
  constructor
  · intro v acc hv ha n hn
    refine eight_converges v hv 65536 acc ha ?_ n hn
    unfold eightDist
    split_ifs <;> omega
  · intro v s hv hs n hn
    refine two_converges v hv 32768 s hs ?_ n hn
    unfold twoDist
    split_ifs <;> omega

/-- C8 (witness): the 8-sample filter at constant raw `5800` from accumulator
`46400` settles at smoothed `5800`; the two-point filter at constant raw
`8000` from smoothed `8200` settles within `[8000, 8001]`. -/
theorem C8_witness :
    ((eightNext 5800)^[65536] 46400) / 8 = 5800 ∧
    (8000 ≤ (twoPointStep 8000)^[32768] 8200 ∧
      (twoPointStep 8000)^[32768] 8200 ≤ 8000 + 1) :=
  ⟨C8_convergence.1 5800 46400 (by decide) (by decide) 65536 (by decide),
   C8_convergence.2 8000 8200 (by decide) (by decide) 32768 (by decide)⟩

/-! ## Claim C9: motor line mutual exclusion (lemmas) -/

theorem act_on_decision_end (d : Nat) :
    (act_on_decision motor_init_lines d).2 = motor_init_lines := by
  unfold act_on_decision motor_close_run motor_open_run motor_init_lines
  split_ifs <;> rfl

theorem act_on_decision_segs (d : Nat) (p : Lines × Nat)
    (hp : p ∈ (act_on_decision motor_init_lines d).1) :
    (p.1.mot_open = false ∨ p.1.mot_close = false) ∧
    (p.2 = MOT_OPEN_TIME ∨ p.2 = MOT_CLOSE_TIME) := by
  unfold act_on_decision motor_close_run motor_open_run motor_init_lines at hp
  split_ifs at hp <;> simp at hp
  · rw [hp]
    exact ⟨Or.inl rfl, Or.inr rfl⟩
  · rw [hp]
    exact ⟨Or.inr rfl, Or.inl rfl⟩

theorem run_decisions_exclusive (ds : List Nat) :
    (∀ p ∈ (run_decisions motor_init_lines ds).1,
      (p.1.mot_open = false ∨ p.1.mot_close = false) ∧
      (p.2 = MOT_OPEN_TIME ∨ p.2 = MOT_CLOSE_TIME)) ∧
    (run_decisions motor_init_lines ds).2 = motor_init_lines := by
  induction ds with
  | nil => exact ⟨fun p hp => absurd hp (List.not_mem_nil p), rfl⟩
  | cons d ds ih =>
    constructor
    · intro p hp
      unfold run_decisions at hp
      rw [act_on_decision_end d] at hp
      rcases List.mem_append.mp hp with hL | hR
      · exact act_on_decision_segs d p hL
      · exact ih.1 p hR
    · show (run_decisions (act_on_decision motor_init_lines d).2 ds).2 = motor_init_lines
      rw [act_on_decision_end d]
      exact ih.2

/-- C9: for every sequence of regulation decisions executed from the
initialized actuator (both lines low), the two motor output lines are never
asserted simultaneously: every held line segment has at most one line high
and is held for its fixed configured duration (`MOT_OPEN_TIME` or
`MOT_CLOSE_TIME`), and after the sequence returns both lines are low again
(each pulse de-asserts its line before control returns). -/
theorem C9_mutual_exclusion (ds : List Nat) (p : Lines × Nat)
    (hp : p ∈ (run_decisions motor_init_lines ds).1) :
    (p.1.mot_open = false ∨ p.1.mot_close = false) ∧
    (p.2 = MOT_OPEN_TIME ∨ p.2 = MOT_CLOSE_TIME) ∧
    (run_decisions motor_init_lines ds).2 = motor_init_lines := by
  have h := run_decisions_exclusive ds
  exact ⟨(h.1 p hp).1, (h.1 p hp).2, h.2⟩

/-- C9 (witness): the close-then-open sequence holds `MOT_CLOSE` alone for
its configured duration. -/
theorem C9_witness :
    (((⟨false, true⟩, 400) : Lines × Nat).1.mot_open = false ∨
      ((⟨false, true⟩, 400) : Lines × Nat).1.mot_close = false) ∧
    (((⟨false, true⟩, 400) : Lines × Nat).2 = MOT_OPEN_TIME ∨
      ((⟨false, true⟩, 400) : Lines × Nat).2 = MOT_CLOSE_TIME) ∧
    (run_decisions motor_init_lines [45, 43]).2 = motor_init_lines :=
  C9_mutual_exclusion [45, 43] (⟨false, true⟩, 400) (by decide)

/-! ## Claim C10: status fetch leaves controller state unchanged -/

theorem foldl_hostStep_filter (evs : List HostEvent) :
    ∀ s : CtrlState,
      List.foldl hostStep s evs = List.foldl hostStep s (evs.filter isCycle) := by
  induction evs with
  | nil => intro s; rfl
  | cons e evs ih =>
    intro s
    cases e with
    | fetch =>
      rw [List.foldl_cons]
      show List.foldl hostStep s evs = _
      rw [ih s]
      rfl
    | cycle raw =>
      rw [List.foldl_cons]
      show List.foldl hostStep (loopIter s raw) evs = _
      rw [ih (loopIter s raw)]
      rfl

/-- C10: in the minimal build (`CAN_AFFORD_USB_COMMANDS` undefined) handling
a status fetch returns the `answer` struct contents and writes no controller
state; interleaving any fetches with measurement cycles yields exactly the
state of the cycles alone; and on a cycle without a regulation decision the
`motor_moved` indicator is unchanged — so a fetch never resets it to
no-movement and it changes only at the next decision. -/
theorem C10_fetch_frame :
    (∀ s : CtrlState, usbFunctionSetup_min s = (s, (s.temp_last, s.motor_moved))) ∧
    (∀ (s : CtrlState) (evs : List HostEvent),
      List.foldl hostStep s evs = List.foldl hostStep s (evs.filter isCycle)) ∧
    (∀ (s : CtrlState) (raw : Nat), s.time < RADIATOR_RESPONSE_TIME →
      (loopIter s raw).motor_moved = s.motor_moved) := by
  refine ⟨fun s => rfl, fun s evs => foldl_hostStep_filter evs s, ?_⟩
  intro s raw hs
  unfold loopIter
  rw [if_neg ?_]
  simp only [RADIATOR_RESPONSE_TIME] at hs ⊢
  rw [Nat.mod_eq_of_lt (by omega : s.time + 1 < 65536)]
  omega

/-- C10 (witness): a fetch from a concrete state returns its `answer` fields
without touching it, and a non-decision cycle keeps `motor_moved`. -/
theorem C10_witness :
    usbFunctionSetup_min ⟨0, 0, 46400, 0, 32⟩ = (⟨0, 0, 46400, 0, 32⟩, (0, 32)) ∧
    (loopIter ⟨0, 0, 46400, 0, 32⟩ 6000).motor_moved =
      (⟨0, 0, 46400, 0, 32⟩ : CtrlState).motor_moved :=
  ⟨C10_fetch_frame.1 ⟨0, 0, 46400, 0, 32⟩,
   C10_fetch_frame.2.2 ⟨0, 0, 46400, 0, 32⟩ 6000 (by decide)⟩

end ISTAtrol
